import Mathlib

/-!
Verification of an MPSC channel built from a mutex and a condition variable
(`src/src/main.rs`).  The shared state (`Inner`) holds the FIFO queue, the
live-sender count and the channel-active flag; the single receiver
additionally owns a private buffer.  Since the mutex serializes every
operation, the sequential semantics below models each operation as a pure
state transformer on the combined state.  Blocking inside `recv` is modelled
by a distinguished `wouldBlock` outcome (the condition-variable wait cannot
make progress without a concurrent sender, so a sequential call simply
reports that it would block).
-/

namespace Channels

/-- `Inner<T>` of the source: the data guarded by the mutex. -/
structure Inner (T : Type) where
  queue : List T
  senders_count : Nat
  is_channel_still_active : Bool
  deriving Repr, DecidableEq

/-- The whole observable state of one channel: the mutex-guarded `Inner`
together with the receiver's private `buffer` (field `buffer` of
`Reciever<T>` in the source). -/
structure ChannelState (T : Type) where
  inner : Inner T
  buffer : List T
  deriving Repr, DecidableEq

/-- `channel::<T>()` of the source: fresh shared state with an empty queue,
`senders_count = 1`, `is_channel_still_active = true`, and the receiver's
buffer empty. -/
def channel (T : Type) : ChannelState T :=
  ⟨⟨[], 1, true⟩, []⟩

/-- `Sender::send` of the source.  Under the lock: if the channel is no
longer active, fail with the error string; otherwise push the value to the
back of the queue (the subsequent `notify_one` has no effect on the state). -/
def send {T : Type} : ChannelState T → T → Except String Unit × ChannelState T
  | ⟨⟨q, c, act⟩, b⟩, data =>
    if !act then
      (Except.error "Channel is closed", ⟨⟨q, c, act⟩, b⟩)
    else
      (Except.ok (), ⟨⟨q ++ [data], c, act⟩, b⟩)

/-- `Clone for Sender` of the source: under the lock, increment
`senders_count`; nothing else changes. -/
def cloneSender {T : Type} : ChannelState T → ChannelState T
  | ⟨⟨q, c, act⟩, b⟩ => ⟨⟨q, c + 1, act⟩, b⟩

/-- `Drop for Sender` of the source: under the lock, decrement
`senders_count`; when the new count is 0, call `notify_one` on the condition
variable.  The returned Bool records whether that notification happened. -/
def dropSender {T : Type} : ChannelState T → Bool × ChannelState T
  | ⟨⟨q, c, act⟩, b⟩ =>
    let c2 := c - 1
    (c2 == 0, ⟨⟨q, c2, act⟩, b⟩)

/-- `Drop for Reciever` of the source: under the lock, set
`is_channel_still_active` to false. -/
def dropReceiver {T : Type} : ChannelState T → ChannelState T
  | ⟨⟨q, c, _⟩, b⟩ => ⟨⟨q, c, false⟩, b⟩

/-- The three ways a sequential `Reciever::recv` call can end. -/
inductive RecvOutcome (T : Type) where
  | value (v : T)
  | exhausted
  | wouldBlock
  deriving Repr, DecidableEq

/-- Result of one `recv` call: its outcome, the state it leaves behind, and
whether the call acquired the shared lock (the fast path served from the
private buffer does not). -/
structure RecvResult (T : Type) where
  outcome : RecvOutcome T
  state : ChannelState T
  lockedShared : Bool
  deriving Repr, DecidableEq

/-- `Reciever::recv` of the source.  Fast path: pop the front of the private
buffer without the lock.  Slow path (buffer empty), under the lock: pop the
front of the queue; if the queue still holds further elements, `mem::swap`
the remaining queue with the (empty) buffer; if the queue was empty and
`senders_count == 0` return `None` (`exhausted`); otherwise the call would
wait on the condition variable (`wouldBlock`). -/
def recv {T : Type} : ChannelState T → RecvResult T
  | ⟨⟨q, c, act⟩, b⟩ =>
    match b with
    | v :: rest => ⟨RecvOutcome.value v, ⟨⟨q, c, act⟩, rest⟩, false⟩
    | [] =>
      match q with
      | v :: qrest =>
        if qrest.isEmpty then
          ⟨RecvOutcome.value v, ⟨⟨qrest, c, act⟩, []⟩, true⟩
        else
          -- mem::swap of the remaining queue with the empty buffer
          ⟨RecvOutcome.value v, ⟨⟨[], c, act⟩, qrest⟩, true⟩
      | [] =>
        if c == 0 then ⟨RecvOutcome.exhausted, ⟨⟨[], c, act⟩, []⟩, true⟩
        else ⟨RecvOutcome.wouldBlock, ⟨⟨[], c, act⟩, []⟩, true⟩

/-- The values a `recv` outcome delivers to the caller (one for `value`,
none otherwise). -/
def deliveredValues {T : Type} : RecvOutcome T → List T
  | RecvOutcome.value v => [v]
  | RecvOutcome.exhausted => []
  | RecvOutcome.wouldBlock => []

/-- `n` successive `recv` calls: the list of outcomes and the final state. -/
def recvN {T : Type} : Nat → ChannelState T → List (RecvOutcome T) × ChannelState T
  | 0, s => ([], s)
  | n + 1, s =>
    let r := recv s
    let rest := recvN n r.state
    (r.outcome :: rest.1, rest.2)

/-- Perform a whole list of sends in order, keeping only the state. -/
def sendAll {T : Type} : ChannelState T → List T → ChannelState T
  | s, [] => s
  | s, v :: vs => sendAll (send s v).2 vs

/-- The pending values of a state: sent but not yet returned to the caller,
buffer first (its elements left the shared queue earlier). -/
def pending {T : Type} (s : ChannelState T) : List T :=
  s.buffer ++ s.inner.queue

/-- Drain up to `n` values through the buffered `recv` of the source,
stopping at the first call that returns no value. -/
def drainImpl {T : Type} : Nat → ChannelState T → List T
  | 0, _ => []
  | n + 1, s =>
    match recv s with
    | ⟨RecvOutcome.value v, s2, _⟩ => v :: drainImpl n s2
    | _ => []

/-- Modelled from the spec: the unbuffered reference receiver of the
"buffer transparency" property — it serves exactly one element from the
front of the shared queue per call and never moves elements into a private
buffer.  Draining with it pops the queue one item at a time. -/
def drainSpecOneAtATime {T : Type} : Nat → List T → List T
  | 0, _ => []
  | _ + 1, [] => []
  | n + 1, v :: q => v :: drainSpecOneAtATime n q

/-- Sending a list of values into any still-active state appends them, in
order, to the back of the queue and changes nothing else. -/
lemma sendAll_active {T : Type} (vs : List T) :
    ∀ (q : List T) (c : Nat) (b : List T),
      sendAll ⟨⟨q, c, true⟩, b⟩ vs = ⟨⟨q ++ vs, c, true⟩, b⟩ := by
  induction vs with
  | nil => intro q c b; simp [sendAll]
  | cons v vs ih =>
    intro q c b
    simp only [sendAll, send, Bool.not_true, Bool.false_eq_true, if_false]
    rw [ih]
    simp

/-- Draining with the buffered `recv` returns exactly the pending values of
the state, independently of how they are split between buffer and queue. -/
lemma drainImpl_pending {T : Type} :
    ∀ (n : Nat) (s : ChannelState T), (pending s).length = n → drainImpl n s = pending s := by
  intro n
  induction n with
  | zero =>
    intro s h
    rw [List.length_eq_zero] at h
    simp [drainImpl, h]
  | succ n ih =>
    intro s h
    obtain ⟨⟨q, c, act⟩, b⟩ := s
    cases b with
    | cons x xs =>
      have hn : (pending (⟨⟨q, c, act⟩, xs⟩ : ChannelState T)).length = n := by
        simpa [pending] using Nat.succ_injective (by simpa [pending] using h)
      simp [drainImpl, recv, pending, ih _ hn]
    | nil =>
      cases q with
      | nil => simp [pending] at h
      | cons x xs =>
        cases xs with
        | nil =>
          have hn : n = 0 := by simpa [pending] using h.symm
          subst hn
          simp [drainImpl, recv, pending]
        | cons y ys =>
          have hn : (pending (⟨⟨[], c, act⟩, y :: ys⟩ : ChannelState T)).length = n := by
            simpa [pending] using Nat.succ_injective (by simpa [pending] using h)
          simp [drainImpl, recv, pending, ih _ hn]

/-- The one-at-a-time reference drain returns the queue itself when given
just enough calls. -/
lemma drainSpecOneAtATime_self {T : Type} :
    ∀ (vs : List T), drainSpecOneAtATime vs.length vs = vs := by
  intro vs
  induction vs with
  | nil => rfl
  | cons v vs ih => simp [drainSpecOneAtATime, ih]

/-- C1: For a freshly created channel, after send(5) then send(10) (both
returning Ok), two successive recv() calls return Some(5) then Some(10)
(outcome `value 5` then `value 10`): values are delivered in the FIFO order
of their queue insertions. -/
theorem spec_C1_fifo_two_sends :
    (send (channel Nat) 5).1 = Except.ok () ∧
    (send (send (channel Nat) 5).2 10).1 = Except.ok () ∧
    (recv (send (send (channel Nat) 5).2 10).2).outcome = RecvOutcome.value 5 ∧
    (recv (recv (send (send (channel Nat) 5).2 10).2).state).outcome = RecvOutcome.value 10 :=
  ⟨rfl, rfl, rfl, rfl⟩

/-- C2: send(value) fails if and only if the channel's active flag is false
at the time of the call, in which case it returns the ChannelClosed error
and leaves the whole state (in particular the queue) unchanged; otherwise
it appends value to the back of the queue, changes nothing else, and
returns Ok(()). -/
theorem spec_C2_send_active_iff (T : Type) (s : ChannelState T) (v : T) :
    if s.inner.is_channel_still_active then
      (send s v).1 = Except.ok () ∧
      (send s v).2.inner.queue = s.inner.queue ++ [v] ∧
      (send s v).2.inner.senders_count = s.inner.senders_count ∧
      (send s v).2.inner.is_channel_still_active = s.inner.is_channel_still_active ∧
      (send s v).2.buffer = s.buffer
    else
      (send s v).1 = Except.error "Channel is closed" ∧ (send s v).2 = s := by
  obtain ⟨⟨q, c, act⟩, b⟩ := s
  cases act <;> simp [send]

/-- C3: In every state where the producer count is 0 and both the shared
queue and the consumer's private buffer are empty, recv() returns None
(`exhausted`), the state is unchanged, and hence every subsequent recv()
call also returns None. -/
theorem spec_C3_exhaustion_stable (T : Type) (s : ChannelState T)
    (hc : s.inner.senders_count = 0) (hq : s.inner.queue = [])
    (hb : s.buffer = []) (n : Nat) :
    (recvN n s).1 = List.replicate n RecvOutcome.exhausted ∧ (recvN n s).2 = s := by
  obtain ⟨⟨q, c, act⟩, b⟩ := s
  simp only at hc hq hb
  subst hc hq hb
  induction n with
  | zero => exact ⟨rfl, rfl⟩
  | succ n ih =>
    refine ⟨?_, ?_⟩ <;>
      simp [recvN, recv, List.replicate, ih.1, ih.2]

/-- Witness for C3 at the concrete state reached by dropping the only
producer of a fresh channel. -/
theorem spec_C3_witness :
    (recvN 2 (⟨⟨[], 0, true⟩, []⟩ : ChannelState Nat)).1 =
      List.replicate 2 RecvOutcome.exhausted ∧
    (recvN 2 (⟨⟨[], 0, true⟩, []⟩ : ChannelState Nat)).2 = ⟨⟨[], 0, true⟩, []⟩ :=
  spec_C3_exhaustion_stable Nat ⟨⟨[], 0, true⟩, []⟩ rfl rfl rfl 2

/-- C4: Buffer transparency.  General part: for every sequence of sends into
a fresh channel, draining with the source's buffered `recv` yields exactly
the sent sequence, and so does the spec's unbuffered one-at-a-time reference
drain — the two observable sequences coincide.  Concrete part: after sending
5, 10, 15 in a burst, three recv() calls return Some(5), Some(10), Some(15),
and only the first call acquires the shared lock. -/
theorem spec_C4_buffer_transparency :
    (∀ (T : Type) (vs : List T),
        drainImpl vs.length (sendAll (channel T) vs) = vs ∧
        drainSpecOneAtATime vs.length vs = vs) ∧
    ((recv (sendAll (channel Nat) [5, 10, 15])).outcome = RecvOutcome.value 5 ∧
     (recv (recv (sendAll (channel Nat) [5, 10, 15])).state).outcome = RecvOutcome.value 10 ∧
     (recv (recv (recv (sendAll (channel Nat) [5, 10, 15])).state).state).outcome =
       RecvOutcome.value 15 ∧
     (recv (sendAll (channel Nat) [5, 10, 15])).lockedShared = true ∧
     (recv (recv (sendAll (channel Nat) [5, 10, 15])).state).lockedShared = false ∧
     (recv (recv (recv (sendAll (channel Nat) [5, 10, 15])).state).state).lockedShared = false) := by
  constructor
  · intro T vs
    refine ⟨?_, drainSpecOneAtATime_self vs⟩
    have hs : sendAll (channel T) vs = ⟨⟨vs, 1, true⟩, []⟩ := by
      simpa [channel] using sendAll_active vs [] 1 []
    rw [hs]
    exact drainImpl_pending vs.length ⟨⟨vs, 1, true⟩, []⟩ (by simp [pending])
  · exact ⟨rfl, rfl, rfl, rfl, rfl, rfl⟩

/-- C5: When recv() pops a value from the shared queue (slow path: buffer
empty) and the queue still holds further elements, the whole remaining queue
is moved into the consumer's private buffer in one swap, in its original
order, the shared queue ends up empty, and the popped front element is
returned. -/
theorem spec_C5_queue_to_buffer_swap (T : Type) (s : ChannelState T) (v : T)
    (rest : List T) (hb : s.buffer = []) (hq : s.inner.queue = v :: rest)
    (hr : rest ≠ []) :
    recv s =
      ⟨RecvOutcome.value v,
       ⟨⟨[], s.inner.senders_count, s.inner.is_channel_still_active⟩, rest⟩, true⟩ := by
  obtain ⟨⟨q, c, act⟩, b⟩ := s
  simp only at hb hq
  subst hb hq
  cases rest with
  | nil => exact absurd rfl hr
  | cons y ys => rfl

/-- Witness for C5 at the concrete state with queue [5, 10, 15] and empty
buffer. -/
theorem spec_C5_witness :
    recv (⟨⟨[5, 10, 15], 1, true⟩, []⟩ : ChannelState Nat) =
      ⟨RecvOutcome.value 5, ⟨⟨[], 1, true⟩, [10, 15]⟩, true⟩ :=
  spec_C5_queue_to_buffer_swap Nat ⟨⟨[5, 10, 15], 1, true⟩, []⟩ 5 [10, 15]
    rfl rfl (by decide)

/-- C6: channel construction always succeeds (it is a total function) and
yields the state with an empty queue, senders_count = 1, the active flag
true, and an empty consumer buffer; the one producer and one consumer handle
it returns share this single state. -/
theorem spec_C6_channel_construction (T : Type) :
    (channel T).inner.queue = [] ∧
    (channel T).inner.senders_count = 1 ∧
    (channel T).inner.is_channel_still_active = true ∧
    (channel T).buffer = [] :=
  ⟨rfl, rfl, rfl, rfl⟩

/-- C7: Cloning a producer handle increments senders_count by exactly 1 and
changes nothing else: queue, active flag and consumer buffer are untouched. -/
theorem spec_C7_clone_frame (T : Type) (s : ChannelState T) :
    (cloneSender s).inner.senders_count = s.inner.senders_count + 1 ∧
    (cloneSender s).inner.queue = s.inner.queue ∧
    (cloneSender s).inner.is_channel_still_active = s.inner.is_channel_still_active ∧
    (cloneSender s).buffer = s.buffer := by
  obtain ⟨⟨q, c, act⟩, b⟩ := s
  exact ⟨rfl, rfl, rfl, rfl⟩

/-- C8: Destroying a producer handle (so the count is positive beforehand)
decrements senders_count by exactly 1, signals the condition variable
exactly when the resulting count is 0, and changes nothing else: queue,
active flag and consumer buffer are untouched. -/
theorem spec_C8_drop_sender (T : Type) (s : ChannelState T)
    (h : 0 < s.inner.senders_count) :
    (dropSender s).2.inner.senders_count + 1 = s.inner.senders_count ∧
    ((dropSender s).1 = true ↔ (dropSender s).2.inner.senders_count = 0) ∧
    (dropSender s).2.inner.queue = s.inner.queue ∧
    (dropSender s).2.inner.is_channel_still_active = s.inner.is_channel_still_active ∧
    (dropSender s).2.buffer = s.buffer := by
  obtain ⟨⟨q, c, act⟩, b⟩ := s
  simp only at h
  cases c with
  | zero => exact absurd h (by simp)
  | succ c =>
    refine ⟨rfl, ?_, rfl, rfl, rfl⟩
    simp [dropSender]

/-- Witness for C8 at a concrete state with one live sender: dropping it
decrements the count to 0 and signals. -/
theorem spec_C8_witness :
    0 < (⟨⟨[7], 1, true⟩, []⟩ : ChannelState Nat).inner.senders_count ∧
    ((dropSender (⟨⟨[7], 1, true⟩, []⟩ : ChannelState Nat)).2.inner.senders_count + 1 =
        (⟨⟨[7], 1, true⟩, []⟩ : ChannelState Nat).inner.senders_count ∧
      ((dropSender (⟨⟨[7], 1, true⟩, []⟩ : ChannelState Nat)).1 = true ↔
        (dropSender (⟨⟨[7], 1, true⟩, []⟩ : ChannelState Nat)).2.inner.senders_count = 0) ∧
      (dropSender (⟨⟨[7], 1, true⟩, []⟩ : ChannelState Nat)).2.inner.queue =
        (⟨⟨[7], 1, true⟩, []⟩ : ChannelState Nat).inner.queue ∧
      (dropSender (⟨⟨[7], 1, true⟩, []⟩ : ChannelState Nat)).2.inner.is_channel_still_active =
        (⟨⟨[7], 1, true⟩, []⟩ : ChannelState Nat).inner.is_channel_still_active ∧
      (dropSender (⟨⟨[7], 1, true⟩, []⟩ : ChannelState Nat)).2.buffer =
        (⟨⟨[7], 1, true⟩, []⟩ : ChannelState Nat).buffer) :=
  ⟨by decide, spec_C8_drop_sender Nat ⟨⟨[7], 1, true⟩, []⟩ (by decide)⟩

/-- C9: The active flag is monotonically non-increasing over every operation
of the channel: construction starts it at true, clone, send, recv and
producer destruction leave it exactly as it was, and consumer destruction
sets it to false — so once false it is never set back to true and the
channel never reopens. -/
theorem spec_C9_active_monotone (T : Type) (s : ChannelState T) (v : T) :
    (channel T).inner.is_channel_still_active = true ∧
    (cloneSender s).inner.is_channel_still_active = s.inner.is_channel_still_active ∧
    (send s v).2.inner.is_channel_still_active = s.inner.is_channel_still_active ∧
    (recv s).state.inner.is_channel_still_active = s.inner.is_channel_still_active ∧
    (dropSender s).2.inner.is_channel_still_active = s.inner.is_channel_still_active ∧
    (dropReceiver s).inner.is_channel_still_active = false := by
  obtain ⟨⟨q, c, act⟩, b⟩ := s
  refine ⟨rfl, rfl, ?_, ?_, rfl, rfl⟩
  · cases act <;> simp [send]
  · cases b with
    | cons x xs => rfl
    | nil =>
      cases q with
      | nil => simp only [recv]; split <;> rfl
      | cons x xs => simp only [recv]; split <;> rfl

/-- C10: The slow path of recv() (the one that acquires the shared lock) is
taken exactly when the private buffer is empty, so the queue-into-buffer
swap never discards or duplicates an element; and every operation preserves
the accounting invariant on the pending values (buffer followed by queue):
construction starts pending empty, clone and both destructions leave it
unchanged, a successful send appends exactly its value (a rejected send
changes nothing), and recv removes exactly the value it delivers from the
front. -/
theorem spec_C10_pending_invariant (T : Type) (s : ChannelState T) (v : T) :
    (recv s).lockedShared = s.buffer.isEmpty ∧
    pending (channel T) = [] ∧
    pending (cloneSender s) = pending s ∧
    pending (dropSender s).2 = pending s ∧
    pending (dropReceiver s) = pending s ∧
    pending (send s v).2 =
      (bif s.inner.is_channel_still_active then pending s ++ [v] else pending s) ∧
    pending s = deliveredValues (recv s).outcome ++ pending (recv s).state := by
  obtain ⟨⟨q, c, act⟩, b⟩ := s
  refine ⟨?_, rfl, rfl, rfl, rfl, ?_, ?_⟩
  · cases b with
    | cons x xs => rfl
    | nil =>
      cases q with
      | nil => simp only [recv]; split <;> rfl
      | cons x xs => simp only [recv]; split <;> rfl
  · cases act <;> simp [send, pending]
  · cases b with
    | cons x xs => simp [recv, pending, deliveredValues]
    | nil =>
      cases q with
      | nil => simp only [recv]; split <;> simp [pending, deliveredValues]
      | cons x xs =>
        cases xs with
        | nil => simp [recv, pending, deliveredValues]
        | cons y ys => simp [recv, pending, deliveredValues]

end Channels
